import Mathlib

/-!
Verification of `train_torch.py` (KoGPT2 chatbot fine-tuning and chat script).

The Python source is shallowly embedded: tokenized questions/answers are
lists of token strings, token ids are naturals, logits are rationals
(reals only where softmax is involved), the tokenizer's `tokenize`,
`encode`, `convert_tokens_to_ids` and the neural models are abstract
function parameters, and the interactive chat loops are modelled as
fuel-bounded recursion over a scripted list of user inputs.
-/

/-- Special tokens defined at the top of `train_torch.py`. -/
def U_TKN : String := "<usr>"

def S_TKN : String := "<sys>"

def BOS : String := "</s>"

def EOS : String := "</s>"

def MASK : String := "<unused0>"

def SENT : String := "<unused1>"

def PAD : String := "<pad>"

/-- Embedding of `torch.argmax` on a one-dimensional tensor: the index of
the first maximal element (0 on the empty list). -/
def argmaxIdx {α : Type _} [LinearOrder α] : List α → Nat
  | [] => 0
  | x :: xs =>
    match xs with
    | [] => 0
    | y :: ys =>
      let j := argmaxIdx (y :: ys)
      if (y :: ys).getD j x ≤ x then 0 else j + 1

theorem argmaxIdx_lt_length {α : Type _} [LinearOrder α] :
    ∀ (l : List α), l ≠ [] → argmaxIdx l < l.length
  | [], h => absurd rfl h
  | [x], _ => by simp [argmaxIdx]
  | x :: y :: ys, _ => by
    have ih := argmaxIdx_lt_length (y :: ys) (by simp)
    simp only [argmaxIdx]
    split
    · simp
    · simpa using Nat.succ_lt_succ ih

namespace CharDataset

/-- Embedding of lines 96–105 of `CharDataset.__getitem__`: the
question/answer truncation step.  Returns `none` when the
`assert a_len > 0` would fail (the Python code raises there).
Python's slice `q_toked[-k:]` keeps the whole list when `k = 0`. -/
def truncQA (maxLen : Nat) (qT aT : List String) :
    Option (List String × List String) :=
  if maxLen < qT.length + aT.length then
    let aLen : Int := (maxLen : Int) - qT.length
    if aLen ≤ 0 then
      let k := maxLen / 2
      let qT2 := if k = 0 then qT else qT.drop (qT.length - k)
      let aLen2 : Int := (maxLen : Int) - qT2.length
      if 0 < aLen2 then some (qT2, aT.take aLen2.toNat) else none
    else
      some (qT, aT.take aLen.toNat)
  else
    some (qT, aT)

/-- Embedding of the `while len(...) < self.max_len: ... += [pad_token_id]`
padding loops of `__getitem__`. -/
def padTo (maxLen padId : Nat) (l : List Nat) : List Nat :=
  l ++ List.replicate (maxLen - l.length) padId

/-- Embedding of `CharDataset.__getitem__` after tokenization: `qT` and
`aT` are the already-tokenized question (`<usr>`+Q+`<unused1>`+label) and
answer (`<sys>`+A+`</s>`), `toId` is `convert_tokens_to_ids`, `padId` is
`pad_token_id`.  Returns `(token_ids, mask, labels_ids)`, or `none` when
the truncation assert fails. -/
def getitem (toId : String → Nat) (padId maxLen : Nat)
    (qT aT : List String) : Option (List Nat × List Nat × List Nat) :=
  match truncQA maxLen qT aT with
  | none => none
  | some (qT2, aT2) =>
    let qLen := qT2.length
    let aLen := aT2.length
    let labels := List.replicate qLen MASK ++ aT2.drop 1
    let mask := List.replicate qLen 0 ++ List.replicate aLen 1 ++
      List.replicate (maxLen - qLen - aLen) 0
    let labelsIds := padTo maxLen padId (labels.map toId)
    let tokenIds := padTo maxLen padId ((qT2 ++ aT2).map toId)
    some (tokenIds, mask, labelsIds)

/-- Central fact about the truncation step: for `maxLen ≥ 2` it always
succeeds and the combined length of the returned pair is at most
`maxLen`. -/
theorem truncQA_spec (maxLen : Nat) (qT aT : List String)
    (h2 : 2 ≤ maxLen) :
    ∃ qT2 aT2, truncQA maxLen qT aT = some (qT2, aT2) ∧
      qT2.length + aT2.length ≤ maxLen := by
  unfold truncQA
  by_cases hov : maxLen < qT.length + aT.length
  · simp only [hov, if_true]
    by_cases hq : ((maxLen : Int) - qT.length) ≤ 0
    · have hqlen : maxLen ≤ qT.length := by
        have := hq
        omega
      have hk0 : maxLen / 2 ≠ 0 := by omega
      have hklt : maxLen / 2 < qT.length := by
        have : maxLen / 2 < maxLen := Nat.div_lt_self (by omega) (by omega)
        omega
      have hdroplen :
          (qT.drop (qT.length - maxLen / 2)).length = maxLen / 2 := by
        rw [List.length_drop]
        omega
      have hpos : (0 : Int) <
          (maxLen : Int) - (qT.drop (qT.length - maxLen / 2)).length := by
        rw [hdroplen]
        have : maxLen / 2 < maxLen := Nat.div_lt_self (by omega) (by omega)
        omega
      simp only [hq, if_true, hk0, if_neg, ite_false, hpos, if_true]
      refine ⟨_, _, rfl, ?_⟩
      have htake : (aT.take ((maxLen : Int) -
          (qT.drop (qT.length - maxLen / 2)).length).toNat).length ≤
          ((maxLen : Int) - (qT.drop (qT.length - maxLen / 2)).length).toNat := by
        simp [List.length_take_le]
      rw [hdroplen] at htake ⊢
      omega
    · simp only [hq, if_false, ite_false]
      refine ⟨_, _, rfl, ?_⟩
      have htake : (aT.take ((maxLen : Int) - qT.length).toNat).length ≤
          ((maxLen : Int) - qT.length).toNat := by
        simp [List.length_take_le]
      omega
  · simp only [hov, if_false, ite_false]
    exact ⟨_, _, rfl, by omega⟩

theorem padTo_length (maxLen padId : Nat) (l : List Nat)
    (h : l.length ≤ maxLen) : (padTo maxLen padId l).length = maxLen := by
  simp [padTo]
  omega

/-- Claim C9: for every `max_len ≥ 2` and every row, the
`assert a_len > 0` in `CharDataset.__getitem__` never fails: after the
question is truncated to its last `int(max_len/2)` tokens, `max_len`
minus the new question length is strictly positive, so the truncation
step succeeds. -/
theorem getitem_assert_safe (maxLen : Nat) (qT aT : List String)
    (h2 : 2 ≤ maxLen) :
    (truncQA maxLen qT aT).isSome = true ∧
      (maxLen ≤ qT.length →
        0 < (maxLen : Int) - (qT.drop (qT.length - maxLen / 2)).length) := by
  constructor
  · obtain ⟨qT2, aT2, heq, _⟩ := truncQA_spec maxLen qT aT h2
    simp [heq]
  · intro hqlen
    have hklt : maxLen / 2 < maxLen := Nat.div_lt_self (by omega) (by omega)
    rw [List.length_drop]
    omega

theorem getitem_assert_safe_witness :
    (truncQA 2 ["a", "b", "c"] ["d"]).isSome = true :=
  (getitem_assert_safe 2 ["a", "b", "c"] ["d"] (by decide)).1

/-- Claim C8: for every `max_len ≥ 2` and every row, the three values
returned by `CharDataset.__getitem__` — `token_ids`, `mask` and
`labels_ids` — each have length exactly `max_len`. -/
theorem getitem_lengths (toId : String → Nat) (padId maxLen : Nat)
    (qT aT : List String) (h2 : 2 ≤ maxLen) :
    ∃ tokenIds mask labelsIds,
      getitem toId padId maxLen qT aT = some (tokenIds, mask, labelsIds) ∧
        tokenIds.length = maxLen ∧ mask.length = maxLen ∧
        labelsIds.length = maxLen := by
  obtain ⟨qT2, aT2, heq, hle⟩ := truncQA_spec maxLen qT aT h2
  refine ⟨_, _, _, by rw [getitem, heq], ?_, ?_, ?_⟩
  · exact padTo_length _ _ _ (by simp; omega)
  · simp
    omega
  · refine padTo_length _ _ _ ?_
    have hdrop : (aT2.drop 1).length = aT2.length - 1 := by simp
    simp [hdrop]
    omega

theorem getitem_lengths_witness :
    ∃ tokenIds mask labelsIds,
      getitem (fun _ => 0) 7 2 [] [] = some (tokenIds, mask, labelsIds) ∧
        tokenIds.length = 2 ∧ mask.length = 2 ∧ labelsIds.length = 2 :=
  getitem_lengths (fun _ => 0) 7 2 [] [] (by decide)

/-- Claim C3: for every row with `q_len + a_len > max_len` (and
`max_len ≥ 2` as configured), `__getitem__` truncates the answer to its
first `max_len - q_len` tokens; when `max_len - q_len` is not positive it
first replaces the question by its last `int(max_len/2)` tokens and then
truncates the answer; in all cases the post-truncation combined length is
at most `max_len`. -/
theorem getitem_truncation_spec (maxLen : Nat) (qT aT : List String)
    (h2 : 2 ≤ maxLen) (hov : maxLen < qT.length + aT.length) :
    (qT.length < maxLen →
      truncQA maxLen qT aT = some (qT, aT.take (maxLen - qT.length))) ∧
    (maxLen ≤ qT.length →
      truncQA maxLen qT aT = some (qT.drop (qT.length - maxLen / 2),
        aT.take (maxLen - (qT.drop (qT.length - maxLen / 2)).length))) ∧
    ∀ qT2 aT2, truncQA maxLen qT aT = some (qT2, aT2) →
      qT2.length + aT2.length ≤ maxLen := by
  refine ⟨?_, ?_, ?_⟩
  · intro hqlt
    have hq : ¬ ((maxLen : Int) - qT.length ≤ 0) := by omega
    have htonat : ((maxLen : Int) - qT.length).toNat = maxLen - qT.length := by
      omega
    simp only [truncQA, hov, if_true, hq, if_false, ite_false, htonat]
  · intro hqge
    have hq : (maxLen : Int) - qT.length ≤ 0 := by omega
    have hk0 : ¬ (maxLen / 2 = 0) := by omega
    have hklt : maxLen / 2 < maxLen := Nat.div_lt_self (by omega) (by omega)
    have hdroplen : (qT.drop (qT.length - maxLen / 2)).length = maxLen / 2 := by
      rw [List.length_drop]
      omega
    have hpos : (0 : Int) <
        (maxLen : Int) - (qT.drop (qT.length - maxLen / 2)).length := by
      rw [hdroplen]
      omega
    have htonat : ((maxLen : Int) -
        (qT.drop (qT.length - maxLen / 2)).length).toNat =
        maxLen - (qT.drop (qT.length - maxLen / 2)).length := by
      rw [hdroplen]
      omega
    simp only [truncQA, hov, if_true, hq, if_true, hk0, ite_false, hpos,
      if_true, htonat]
  · intro qT2 aT2 heq
    obtain ⟨qT3, aT3, heq2, hle⟩ := truncQA_spec maxLen qT aT h2
    rw [heq] at heq2
    obtain ⟨h1, h3⟩ := Prod.mk.injEq .. ▸ (Option.some.injEq .. ▸ heq2)
    rw [← h1, ← h3] at hle
    exact hle

theorem getitem_truncation_spec_witness :
    truncQA 4 ["a", "b", "c"] ["d", "e", "f"] =
      some (["a", "b", "c"], (["d", "e", "f"] : List String).take (4 - 3)) :=
  (getitem_truncation_spec 4 ["a", "b", "c"] ["d", "e", "f"]
    (by decide) (by decide)).1 (by decide)

/-- Claim C2: for every row (with `max_len ≥ 2`), `__getitem__` returns a
labels sequence whose first `q_len` entries are (the id of) the mask token
`<unused0>`, followed by the tokenized answer with its first token
dropped, padded with the pad token id up to `max_len`; and a mask vector
of exactly `q_len` zeros, then `a_len` ones, then zeros up to `max_len`
(`q_len`, `a_len` the post-truncation lengths). -/
theorem getitem_labels_mask_spec (toId : String → Nat) (padId maxLen : Nat)
    (qT aT : List String) (h2 : 2 ≤ maxLen) :
    ∃ qT2 aT2 tokenIds,
      truncQA maxLen qT aT = some (qT2, aT2) ∧
      getitem toId padId maxLen qT aT = some (tokenIds,
        List.replicate qT2.length 0 ++ List.replicate aT2.length 1 ++
          List.replicate (maxLen - qT2.length - aT2.length) 0,
        List.replicate qT2.length (toId MASK) ++ (aT2.drop 1).map toId ++
          List.replicate (maxLen - (qT2.length + (aT2.drop 1).length)) padId) := by
  obtain ⟨qT2, aT2, heq, hle⟩ := truncQA_spec maxLen qT aT h2
  refine ⟨qT2, aT2, padTo maxLen padId ((qT2 ++ aT2).map toId), heq, ?_⟩
  rw [getitem, heq]
  simp only [padTo, List.map_append, List.map_replicate, List.length_append,
    List.length_replicate, List.length_map, List.append_assoc]

theorem getitem_labels_mask_spec_witness :
    ∃ qT2 aT2 tokenIds,
      truncQA 3 ["q"] ["s", "x", "e"] = some (qT2, aT2) ∧
      getitem (fun _ => 5) 9 3 ["q"] ["s", "x", "e"] = some (tokenIds,
        List.replicate qT2.length 0 ++ List.replicate aT2.length 1 ++
          List.replicate (3 - qT2.length - aT2.length) 0,
        List.replicate qT2.length ((fun _ => 5) MASK) ++
          (aT2.drop 1).map (fun _ => 5) ++
          List.replicate (3 - (qT2.length + (aT2.drop 1).length)) 9) :=
  getitem_labels_mask_spec (fun _ => 5) 9 3 ["q"] ["s", "x", "e"] (by decide)

end CharDataset

namespace KoGPT2Chat

/-- Abstraction of the tokenizer and the fine-tuned GPT-2 model used by
`KoGPT2Chat.chat`: `encode` is `tok.encode`, `logits` maps an input-id
sequence to the per-position logit rows of `self(input_ids)`, and
`idToToken` is `tok.convert_ids_to_tokens` on a single id. -/
structure ChatModel where
  encode : String → List Nat
  logits : List Nat → List (List ℚ)
  idToToken : Nat → String

/-- The context string `U_TKN + q + SENT + sent + S_TKN + a` fed to the
model at each generation step (line 236 of `train_torch.py`). -/
def buildInput (q sentArg a : String) : String :=
  U_TKN ++ q ++ SENT ++ sentArg ++ S_TKN ++ a

/-- Embedding of lines 237–241: per-position argmax of the logits,
converted to tokens, last element taken (`[-1]`). -/
def genToken (M : ChatModel) (q sentArg a : String) : String :=
  (((M.logits (M.encode (buildInput q sentArg a))).map argmaxIdx).map
    M.idToToken).getLastD ""

/-- Embedding of the inner `while 1` generation loop of
`KoGPT2Chat.chat`, bounded by fuel (`none` = fuel exhausted). -/
def genLoop (M : ChatModel) (q sentArg : String) : Nat → String → Option String
  | 0, _ => none
  | fuel + 1, a =>
    let gen := genToken M q sentArg a
    if gen = EOS then some a
    else genLoop M q sentArg fuel (a ++ gen.replace "▁" " ")

theorem genToken_eq_argmax_last (M : ChatModel) (q sentArg a : String)
    (h : M.logits (M.encode (buildInput q sentArg a)) ≠ []) :
    genToken M q sentArg a =
      M.idToToken (argmaxIdx
        ((M.logits (M.encode (buildInput q sentArg a))).getLastD [])) := by
  obtain ⟨x, hx⟩ := Option.isSome_iff_exists.mp
    (List.getLast?_isSome.mpr h)
  rw [genToken, List.getLastD_eq_getLast?, List.getLastD_eq_getLast?,
    List.getLast?_map, List.getLast?_map, hx]
  rfl

/-- Claim C1: in chat mode, at every response-generation step the token
appended to the reply is the token whose id is the argmax of the model's
logits at the last sequence position of the current context
(`<usr>`+q+`<unused1>`+sent+`<sys>`+reply-so-far), and the inner loop
exits exactly when that argmax token equals the EOS token `</s>`, which
is not itself appended to the reply. -/
theorem chat_greedy_step (M : ChatModel) (q sentArg a : String) (fuel : Nat)
    (h : M.logits (M.encode (buildInput q sentArg a)) ≠ []) :
    (M.idToToken (argmaxIdx
        ((M.logits (M.encode (buildInput q sentArg a))).getLastD [])) = EOS →
      genLoop M q sentArg (fuel + 1) a = some a) ∧
    (M.idToToken (argmaxIdx
        ((M.logits (M.encode (buildInput q sentArg a))).getLastD [])) ≠ EOS →
      genLoop M q sentArg (fuel + 1) a =
        genLoop M q sentArg fuel
          (a ++ (M.idToToken (argmaxIdx
            ((M.logits (M.encode (buildInput q sentArg a))).getLastD
              []))).replace "▁" " ")) := by
  have hgen := genToken_eq_argmax_last M q sentArg a h
  constructor
  · intro heos
    rw [genLoop, hgen, if_pos heos]
  · intro hne
    rw [genLoop, hgen, if_neg hne]

/-- A concrete instance of `ChatModel` used to witness the chat-loop
theorems: every id-sequence gets per-position logits `[0, 1]`, and id 1
decodes to `</s>`. -/
def demoChatModel : ChatModel where
  encode := fun s => List.replicate s.length 0
  logits := fun ids => ids.map (fun _ => [(0 : ℚ), 1])
  idToToken := fun i => if i = 1 then "</s>" else "X"

theorem chat_greedy_step_witness :
    genLoop demoChatModel "q" "0" 1 "" = some "" :=
  (chat_greedy_step demoChatModel "q" "0" "" 0 (by decide)).1 (by decide)

/-- Events observable in a chat session: a (timestamp, emotion) record
appended to `time_list`/`emo_list`, a generated reply, and the final
`emotion_predict_result` plot call. -/
inductive ChatEv
  | record (t : String) (emo : Nat)
  | reply (a : Option String)
  | plot (times : List String) (emos : List Nat) (n : Nat)
deriving DecidableEq

/-- Embedding of the outer `while 1` loop of `KoGPT2Chat.chat`, driven by
a scripted list of user inputs.  `classify` abstracts
`ShowEmotionGraph.sentence_predict` (returning `(emo_str, emo_int)`),
`timeOf` abstracts the KST timestamp taken at step `num`, and `strip`
abstracts Python's `str.strip` (Unicode-whitespace stripping).  The three
accumulators are `time_list`, `emo_list` and `num`. -/
def chat (M : ChatModel) (strip : String → String)
    (classify : String → Nat → String × Nat)
    (timeOf : Nat → String) (sentArg : String) (fuel : Nat) :
    List String → List String → List Nat → Nat → List ChatEv
  | [], _, _, _ => []
  | qTemp :: rest, timeList, emoList, num =>
    let q := strip qTemp
    if q = "quit" then [ChatEv.plot timeList emoList num]
    else
      let t := timeOf num
      let emoI := (classify qTemp num).2
      ChatEv.record t emoI ::
        ChatEv.reply (genLoop M q sentArg fuel "") ::
        chat M strip classify timeOf sentArg fuel rest
          (timeList ++ [t]) (emoList ++ [emoI]) (num + 1)

/-- The sequence of generated replies in a session trace. -/
def replies (evs : List ChatEv) : List (Option String) :=
  evs.filterMap (fun e =>
    match e with
    | ChatEv.reply a => some a
    | _ => none)

theorem replies_cons_record (t : String) (e : Nat) (evs : List ChatEv) :
    replies (ChatEv.record t e :: evs) = replies evs := rfl

theorem replies_cons_reply (a : Option String) (evs : List ChatEv) :
    replies (ChatEv.reply a :: evs) = a :: replies evs := rfl

theorem replies_chat_congr (M : ChatModel) (strip : String → String)
    (c1 c2 : String → Nat → String × Nat) (t1 t2 : Nat → String)
    (sentArg : String) (fuel : Nat) :
    ∀ (inputs : List String) (tl1 el1 tl2 el2 : List _) (n : Nat),
      replies (chat M strip c1 t1 sentArg fuel inputs tl1 el1 n) =
        replies (chat M strip c2 t2 sentArg fuel inputs tl2 el2 n)
  | [], _, _, _, _, _ => rfl
  | qTemp :: rest, tl1, el1, tl2, el2, n => by
    by_cases hq : strip qTemp = "quit"
    · simp [chat, hq, replies]
    · simp only [chat, hq, if_false, ite_false]
      rw [replies_cons_record, replies_cons_record,
        replies_cons_reply, replies_cons_reply]
      rw [replies_chat_congr M strip c1 c2 t1 t2 sentArg fuel rest
        (tl1 ++ [t1 n]) (el1 ++ [(c1 qTemp n).2])
        (tl2 ++ [t2 n]) (el2 ++ [(c2 qTemp n).2]) (n + 1)]

/-- Claim C4: the sentiment classifier's output only drives plotting; the
replies generated in a chat session depend only on the user inputs, the
`--sentiment` argument and the model weights.  Two sessions that agree on
those but run different classifiers produce identical reply sequences. -/
theorem chat_sentiment_noninterference (M : ChatModel)
    (strip : String → String) (c1 c2 : String → Nat → String × Nat)
    (t1 t2 : Nat → String) (sentArg : String) (fuel : Nat)
    (inputs : List String) :
    replies (chat M strip c1 t1 sentArg fuel inputs [] [] 0) =
      replies (chat M strip c2 t2 sentArg fuel inputs [] [] 0) :=
  replies_chat_congr M strip c1 c2 t1 t2 sentArg fuel inputs [] [] [] [] 0

/-- The timestamps recorded for a run of consecutive non-quit utterances
starting at step counter `n`. -/
def timesOf (timeOf : Nat → String) : List String → Nat → List String
  | [], _ => []
  | _ :: rest, n => timeOf n :: timesOf timeOf rest (n + 1)

/-- The emotion ints recorded for a run of consecutive non-quit
utterances starting at step counter `n`. -/
def emosOf (classify : String → Nat → String × Nat) :
    List String → Nat → List Nat
  | [], _ => []
  | q :: rest, n => (classify q n).2 :: emosOf classify rest (n + 1)

/-- The expected per-utterance event blocks: one record followed by one
reply for each non-quit utterance. -/
def traceBlocks (M : ChatModel) (strip : String → String)
    (classify : String → Nat → String × Nat)
    (timeOf : Nat → String) (sentArg : String) (fuel : Nat) :
    List String → Nat → List ChatEv
  | [], _ => []
  | q :: rest, n =>
    ChatEv.record (timeOf n) (classify q n).2 ::
      ChatEv.reply (genLoop M (strip q) sentArg fuel "") ::
      traceBlocks M strip classify timeOf sentArg fuel rest (n + 1)

theorem timesOf_length (timeOf : Nat → String) :
    ∀ (pre : List String) (n : Nat), (timesOf timeOf pre n).length = pre.length
  | [], _ => rfl
  | _ :: rest, n => by
    simp [timesOf, timesOf_length timeOf rest (n + 1)]

theorem emosOf_length (classify : String → Nat → String × Nat) :
    ∀ (pre : List String) (n : Nat),
      (emosOf classify pre n).length = pre.length
  | [], _ => rfl
  | _ :: rest, n => by
    simp [emosOf, emosOf_length classify rest (n + 1)]

theorem chat_cons_ne_quit (M : ChatModel) (strip : String → String)
    (classify : String → Nat → String × Nat) (timeOf : Nat → String)
    (sentArg : String) (fuel : Nat) (qTemp : String) (rest : List String)
    (tl : List String) (el : List Nat) (n : Nat)
    (hq : strip qTemp ≠ "quit") :
    chat M strip classify timeOf sentArg fuel (qTemp :: rest) tl el n =
      ChatEv.record (timeOf n) (classify qTemp n).2 ::
        ChatEv.reply (genLoop M (strip qTemp) sentArg fuel "") ::
        chat M strip classify timeOf sentArg fuel rest (tl ++ [timeOf n])
          (el ++ [(classify qTemp n).2]) (n + 1) := by
  simp [chat, hq]

theorem chat_trace_aux (M : ChatModel) (strip : String → String)
    (classify : String → Nat → String × Nat)
    (timeOf : Nat → String) (sentArg : String) (fuel : Nat)
    (qq : String) (hq : strip qq = "quit") (rest : List String) :
    ∀ (pre : List String), (∀ p ∈ pre, strip p ≠ "quit") →
      ∀ (tl : List String) (el : List Nat) (n : Nat),
        chat M strip classify timeOf sentArg fuel (pre ++ qq :: rest) tl el n =
          traceBlocks M strip classify timeOf sentArg fuel pre n ++
            [ChatEv.plot (tl ++ timesOf timeOf pre n)
              (el ++ emosOf classify pre n) (n + pre.length)]
  | [], _, tl, el, n => by
    simp [chat, hq, traceBlocks, timesOf, emosOf]
  | p :: pre, hpre, tl, el, n => by
    have hp : strip p ≠ "quit" := hpre p (by simp)
    have ih := chat_trace_aux M strip classify timeOf sentArg fuel qq hq rest
      pre (fun x hx => hpre x (by simp [hx])) (tl ++ [timeOf n])
      (el ++ [(classify p n).2]) (n + 1)
    rw [List.cons_append,
      chat_cons_ne_quit M strip classify timeOf sentArg fuel p
        (pre ++ qq :: rest) tl el n hp, ih]
    have hn : n + 1 + pre.length = n + (p :: pre).length := by
      simp
      omega
    rw [hn]
    simp [traceBlocks, timesOf, emosOf, List.append_assoc]

/-- Claim C5: for every user utterance that is not `quit` (after
stripping), exactly one emotion int and one timestamp are appended to
`emo_list` and `time_list` before the reply is generated, and when the
user enters `quit` the loop terminates and `emotion_predict_result` is
called on exactly the `n` utterances recorded so far, `n` being the
number of non-quit utterances. -/
theorem chat_records_and_plot (M : ChatModel) (strip : String → String)
    (classify : String → Nat → String × Nat) (timeOf : Nat → String)
    (sentArg : String) (fuel : Nat) (pre : List String) (qq : String)
    (rest : List String) (hpre : ∀ p ∈ pre, strip p ≠ "quit")
    (hq : strip qq = "quit") :
    chat M strip classify timeOf sentArg fuel (pre ++ qq :: rest) [] [] 0 =
      traceBlocks M strip classify timeOf sentArg fuel pre 0 ++
        [ChatEv.plot (timesOf timeOf pre 0) (emosOf classify pre 0)
          pre.length] ∧
    (timesOf timeOf pre 0).length = pre.length ∧
    (emosOf classify pre 0).length = pre.length := by
  refine ⟨?_, timesOf_length timeOf pre 0, emosOf_length classify pre 0⟩
  have h := chat_trace_aux M strip classify timeOf sentArg fuel qq hq rest pre
    hpre [] [] 0
  simpa using h

theorem chat_records_and_plot_witness :
    chat demoChatModel (fun s => s) (fun _ n => ("x", n)) (fun _ => "t") "0" 1
        (["hi"] ++ "quit" :: []) [] [] 0 =
      traceBlocks demoChatModel (fun s => s) (fun _ n => ("x", n))
          (fun _ => "t") "0" 1 ["hi"] 0 ++
        [ChatEv.plot (timesOf (fun _ => "t") ["hi"] 0)
          (emosOf (fun _ n => ("x", n)) ["hi"] 0)
          (["hi"] : List String).length] ∧
    (timesOf (fun _ => "t") ["hi"] 0).length =
      (["hi"] : List String).length ∧
    (emosOf (fun _ n => ("x", n)) ["hi"] 0).length =
      (["hi"] : List String).length :=
  chat_records_and_plot demoChatModel (fun s => s) (fun _ n => ("x", n))
    (fun _ => "t") "0" 1 ["hi"] "quit" [] (by decide) rfl

end KoGPT2Chat

/-- Python's `int()` applied to a (here: rational-valued) number:
truncation toward zero. -/
def pyInt (x : ℚ) : ℤ := if 0 ≤ x then ⌊x⌋ else ⌈x⌉

namespace KoGPT2Chat

/-- `num_train_steps = len(self.train_dataloader()) * self.hparams.max_epochs`
(line 186): batches per epoch times number of epochs. -/
def num_train_steps (numBatches maxEpochs : Nat) : Nat :=
  numBatches * maxEpochs

/-- `num_warmup_steps = int(num_train_steps * self.hparams.warmup_ratio)`
(line 187). -/
def num_warmup_steps (numBatches maxEpochs : Nat) (warmupRatio : ℚ) : ℤ :=
  pyInt ((num_train_steps numBatches maxEpochs : ℚ) * warmupRatio)

/-- Claim C7: the warmup step count passed to the cosine schedule equals
`floor(warmup_ratio * num_train_steps)` with
`num_train_steps = batches-per-epoch * max_epochs`; it is an integer by
construction and is at most `num_train_steps` whenever
`0 ≤ warmup_ratio ≤ 1`. -/
theorem warmup_steps_spec (numBatches maxEpochs : Nat) (warmupRatio : ℚ)
    (h0 : 0 ≤ warmupRatio) (h1 : warmupRatio ≤ 1) :
    num_warmup_steps numBatches maxEpochs warmupRatio =
      ⌊warmupRatio * (num_train_steps numBatches maxEpochs : ℚ)⌋ ∧
    num_warmup_steps numBatches maxEpochs warmupRatio ≤
      (num_train_steps numBatches maxEpochs : ℤ) := by
  have hnn : 0 ≤ (num_train_steps numBatches maxEpochs : ℚ) * warmupRatio :=
    mul_nonneg (Nat.cast_nonneg _) h0
  constructor
  · rw [num_warmup_steps, pyInt, if_pos hnn, mul_comm]
  · rw [num_warmup_steps, pyInt, if_pos hnn]
    have hle : (num_train_steps numBatches maxEpochs : ℚ) * warmupRatio ≤
        (num_train_steps numBatches maxEpochs : ℚ) :=
      mul_le_of_le_one_right (Nat.cast_nonneg _) h1
    calc ⌊(num_train_steps numBatches maxEpochs : ℚ) * warmupRatio⌋
        ≤ ⌊(num_train_steps numBatches maxEpochs : ℚ)⌋ :=
          Int.floor_le_floor hle
      _ = (num_train_steps numBatches maxEpochs : ℤ) := Int.floor_natCast _

theorem warmup_steps_spec_witness :
    num_warmup_steps 100 3 1 = ⌊(1 : ℚ) * (num_train_steps 100 3 : ℚ)⌋ ∧
    num_warmup_steps 100 3 1 ≤ (num_train_steps 100 3 : ℤ) :=
  warmup_steps_spec 100 3 1 zero_le_one (le_refl 1)

end KoGPT2Chat

namespace ShowEmotionGraph

/-- The seven emotion labels (`x` in `sentence_predict`, `emo_label` in
`emotion_predict_result`). -/
def emoLabel : List String := ["슬픔", "중립", "행복", "혐오", "분노", "공포", "놀람"]

/-- The `if result == 0 ... elif result == 6` chain of lines 285–298
mapping the argmax index to its label string; `none` models the
fall-through case, where `result` would remain a tensor. -/
def labelOfIdx (r : Nat) : Option String :=
  if r = 0 then some "슬픔"
  else if r = 1 then some "중립"
  else if r = 2 then some "행복"
  else if r = 3 then some "혐오"
  else if r = 4 then some "분노"
  else if r = 5 then some "공포"
  else if r = 6 then some "놀람"
  else none

/-- Embedding of the result computation of
`ShowEmotionGraph.sentence_predict`: `result = logits.argmax(-1)`, the
label chain applied to it, and `(result, logits.argmax(-1))` returned. -/
def sentence_predict {α : Type _} [LinearOrder α] (logits : List α) :
    Option String × Nat :=
  (labelOfIdx (argmaxIdx logits), argmaxIdx logits)

/-- Claim C10: with logits over exactly 7 classes, `sentence_predict`
returns an index in `{0,...,6}` together with the corresponding string of
the seven emotion labels, so every index into the 7-element `emo_label`
list in `emotion_predict_result` taken from `emo_list` is in bounds. -/
theorem sentence_predict_in_range {α : Type _} [LinearOrder α]
    (logits : List α) (h7 : logits.length = 7) :
    (sentence_predict logits).2 < emoLabel.length ∧
      (sentence_predict logits).1 =
        some (emoLabel.getD (sentence_predict logits).2 "") := by
  have hne : logits ≠ [] := by
    intro h
    rw [h] at h7
    simp at h7
  have hlt : argmaxIdx logits < 7 := h7 ▸ argmaxIdx_lt_length logits hne
  have hlabels : ∀ r, r < 7 → labelOfIdx r = some (emoLabel.getD r "") := by
    decide
  exact ⟨by simpa [sentence_predict, emoLabel] using hlt,
    hlabels (argmaxIdx logits) hlt⟩

theorem sentence_predict_in_range_witness :
    (sentence_predict ([0, 1, 2, 3, 4, 5, 6] : List ℚ)).2 <
        emoLabel.length ∧
      (sentence_predict ([0, 1, 2, 3, 4, 5, 6] : List ℚ)).1 =
        some (emoLabel.getD
          (sentence_predict ([0, 1, 2, 3, 4, 5, 6] : List ℚ)).2 "") :=
  sentence_predict_in_range ([0, 1, 2, 3, 4, 5, 6] : List ℚ) rfl

end ShowEmotionGraph

theorem argmaxIdx_map_of_strictMono {α β : Type _} [LinearOrder α]
    [LinearOrder β] (f : α → β) (hf : StrictMono f) :
    ∀ (l : List α), argmaxIdx (l.map f) = argmaxIdx l
  | [] => rfl
  | [_] => rfl
  | x :: y :: ys => by
    have ih := argmaxIdx_map_of_strictMono f hf (y :: ys)
    have hgetD : ∀ (j : Nat), ((y :: ys).map f).getD j (f x) =
        f ((y :: ys).getD j x) := by
      intro j
      rw [List.getD_eq_getElem?_getD, List.getD_eq_getElem?_getD,
        List.getElem?_map]
      cases (y :: ys)[j]? <;> rfl
    simp only [List.map_cons] at ih ⊢
    simp only [argmaxIdx, ih]
    rw [show (f y :: ys.map f) = ((y :: ys).map f) from by simp, hgetD]
    simp only [hf.le_iff_le]

/-- Embedding of `logits.softmax(dim=1)` on one logits row
(`prob = logits.softmax(dim=1)` in `sentence_predict`; the spec describes
decoding/classification as "softmax argmax"). -/
noncomputable def softmax (l : List ℝ) : List ℝ :=
  l.map (fun x => Real.exp x / (l.map Real.exp).sum)

/-- Claim C6: for every logits vector, the index selected by argmax over
the raw logits — as computed in `chat` and in `sentence_predict` via
`argmaxIdx` — equals the index selected by argmax over the softmax of
those logits, softmax being strictly monotone in each coordinate. -/
theorem softmax_argmax_eq (l : List ℝ) (h : l ≠ []) :
    argmaxIdx (softmax l) = argmaxIdx l ∧
      (ShowEmotionGraph.sentence_predict (softmax l)).2 =
        (ShowEmotionGraph.sentence_predict l).2 := by
  have hS : 0 < (l.map Real.exp).sum := by
    refine List.sum_pos _ ?_ (by simpa using h)
    intro a ha
    obtain ⟨x, _, rfl⟩ := List.mem_map.mp ha
    exact Real.exp_pos x
  have hf : StrictMono (fun x : ℝ => Real.exp x / (l.map Real.exp).sum) := by
    intro a b hab
    exact (div_lt_div_iff_of_pos_right hS).mpr (Real.exp_lt_exp.mpr hab)
  have h1 : argmaxIdx (softmax l) = argmaxIdx l := by
    rw [softmax]
    exact argmaxIdx_map_of_strictMono _ hf l
  exact ⟨h1, by simp [ShowEmotionGraph.sentence_predict, h1]⟩

theorem softmax_argmax_eq_witness :
    argmaxIdx (softmax [(0 : ℝ), 1]) = argmaxIdx [(0 : ℝ), 1] ∧
      (ShowEmotionGraph.sentence_predict (softmax [(0 : ℝ), 1])).2 =
        (ShowEmotionGraph.sentence_predict [(0 : ℝ), 1]).2 :=
  softmax_argmax_eq [0, 1] (List.cons_ne_nil 0 [1])
